import Mathlib

/-!
Shallow embedding of `src/generation/models/pix2pixHD_model.py`
(class `Pix2PixHDModel`), covering the feature subsystem
(`swap_features`, `broadcast_features`, `sample_features`,
`encode_features`, `get_equiv_ID`), the input encoder
(`encode_input` one-hot path, `get_edges`) and the loss aggregator
(`init_loss_filter`).

Tensors are embedded as total functions from coordinates to values:
a label / instance map of shape (B, 1, H, W) becomes
`Nat → Nat → Nat → Nat` (batch, height, width — the singleton channel
dimension is dropped), and a feature map of shape (B, C, H, W) becomes
`Nat → Nat → Nat → Nat → Int` (batch, channel, height, width).
Fallible operations (assertion failures, out-of-range indexing)
return `Option`.
-/

/-- Composite value resolution used throughout the file
(`label = i if i < 1000 else i // 1000`). -/
def resolveLabel (i : Nat) : Nat := if i < 1000 then i else i / 1000

/-- `get_equiv_ID` (lines 454-466): only the branches for 5 (blouse) and
22 (sweater) are live, both returning 1 (T-shirt); every other id falls
off the end of the function, which in Python returns `None`. -/
def get_equiv_ID (ID : Nat) : Option Nat :=
  if ID = 5 then some 1
  else if ID = 22 then some 1
  else none

/-- `v in np.unique(m)` for a full (B, 1, H, W) tensor: the value occurs
at some in-range coordinate. -/
def hasValue (B H W : Nat) (m : Nat → Nat → Nat → Nat) (v : Nat) : Bool :=
  decide (∃ b : Fin B, ∃ h : Fin H, ∃ w : Fin W, m b.val h.val w.val = v)

/-- `(m[0:1] == v).nonzero()`: the (h, w) coordinates of value `v` in the
first sample, in row-major (lexicographic) order, exactly the order
`torch.nonzero` enumerates them. -/
def classPixels (H W : Nat) (m : Nat → Nat → Nat → Nat) (v : Nat) : List (Nat × Nat) :=
  (List.range H).flatMap (fun h =>
    (List.range W).filterMap (fun w => if m 0 h w = v then some (h, w) else none))

/-- Resolution of the class to read from the reference map
(`swap_features` lines 439-442): the swap id itself when present in the
reference map, otherwise its equivalence-table substitute. -/
def resolvedEquiv (swapID B H W : Nat) (reference_label : Nat → Nat → Nat → Nat) :
    Option Nat :=
  if hasValue B H W reference_label swapID = true then some swapID
  else get_equiv_ID swapID

/-- `swap_features` (lines 432-451).  Returns the pair
(post-state of `condition_feat_map`, post-state of `reference_feat_map`);
the source mutates only the former (line 451), so the second component is
the unchanged input.  `none` models a halt before the mutation: the two
`assert` statements (lines 436 and 444, including `assert(None in ...)`
when `get_equiv_ID` returns `None`), and the `IndexError` of
`reference_indices[0,:]` when the resolved class occurs in the reference
tensor but not in its first sample.  Line 451 writes, for every first-sample
condition pixel of `swapID`, the reference feature vector taken at the
single pixel `reference_indices[0,:]` — the first reference pixel of the
resolved class — broadcast over all of them. -/
def swap_features (swapID B H W : Nat)
    (condition_feat_map reference_feat_map : Nat → Nat → Nat → Nat → Int)
    (condition_label reference_label : Nat → Nat → Nat → Nat) :
    Option ((Nat → Nat → Nat → Nat → Int) × (Nat → Nat → Nat → Nat → Int)) :=
  if hasValue B H W condition_label swapID = true then
    match resolvedEquiv swapID B H W reference_label with
    | none => none
    | some equivID =>
      if hasValue B H W reference_label equivID = true then
        match classPixels H W reference_label equivID with
        | [] => none
        | (fh, fw) :: _ =>
          some (fun b c h w =>
              if b = 0 ∧ h < H ∧ w < W ∧ condition_label 0 h w = swapID then
                reference_feat_map 0 c fh fw
              else condition_feat_map b c h w,
            reference_feat_map)
      else none
  else none

/- Concrete example maps used by witnesses (batch 1, height 1, width 2). -/

/-- Condition feature map: constant 99. -/
def exA_cf : Nat → Nat → Nat → Nat → Int := fun _ _ _ _ => 99

/-- Reference feature map: value = column index, so the two reference
pixels carry distinct feature vectors. -/
def exA_rf : Nat → Nat → Nat → Nat → Int := fun _ _ _ w => (w : Int)

/-- Label map that is 5 everywhere. -/
def exA_lab : Nat → Nat → Nat → Nat := fun _ _ _ => 5

/-- Label map with class 5 at column 0 and class 7 at column 1. -/
def exB_lab : Nat → Nat → Nat → Nat := fun _ _ w => if w = 0 then 5 else 7

/-- Reference label map that is 1 everywhere. -/
def exC_lab : Nat → Nat → Nat → Nat := fun _ _ _ => 1

lemma classPixels_mem (H W : Nat) (m : Nat → Nat → Nat → Nat) (v : Nat)
    (q : Nat × Nat) (hq : q ∈ classPixels H W m v) :
    q.1 < H ∧ q.2 < W ∧ m 0 q.1 q.2 = v := by
  obtain ⟨h, w⟩ := q
  simp only [classPixels, List.mem_flatMap, List.mem_filterMap, List.mem_range] at hq
  obtain ⟨h1, hh1, w1, hw1, hif⟩ := hq
  by_cases hv : m 0 h1 w1 = v
  · simp only [hv, if_pos, Option.some.injEq, Prod.mk.injEq] at hif
    obtain ⟨rfl, rfl⟩ := hif
    exact ⟨hh1, hw1, hv⟩
  · simp [hv] at hif

lemma swap_features_inv (swapID B H W : Nat)
    (cf rf : Nat → Nat → Nat → Nat → Int) (cl rl : Nat → Nat → Nat → Nat)
    (p : (Nat → Nat → Nat → Nat → Int) × (Nat → Nat → Nat → Nat → Int))
    (hres : swap_features swapID B H W cf rf cl rl = some p) :
    hasValue B H W cl swapID = true ∧
    ∃ e, resolvedEquiv swapID B H W rl = some e ∧
      hasValue B H W rl e = true ∧
      ∃ fh fw tl, classPixels H W rl e = (fh, fw) :: tl ∧
        p = (fun b c h w =>
            if b = 0 ∧ h < H ∧ w < W ∧ cl 0 h w = swapID then rf 0 c fh fw
            else cf b c h w,
          rf) := by
  unfold swap_features at hres
  split at hres
  case isFalse => exact absurd hres (by simp)
  case isTrue h1 =>
    refine ⟨h1, ?_⟩
    cases he : resolvedEquiv swapID B H W rl with
    | none => rw [he] at hres; exact absurd hres (by simp)
    | some e =>
      rw [he] at hres
      simp only at hres
      split at hres
      case isFalse => exact absurd hres (by simp)
      case isTrue h2 =>
        refine ⟨e, rfl, h2, ?_⟩
        cases hpx : classPixels H W rl e with
        | nil => rw [hpx] at hres; exact absurd hres (by simp)
        | cons a tl =>
          rw [hpx] at hres
          obtain ⟨fh, fw⟩ := a
          simp only [Option.some.injEq] at hres
          exact ⟨fh, fw, tl, rfl, hres.symm⟩

/-- C1 (counterexample): with both labels 5 everywhere on a 1x2 grid there are
N = 2 condition pixels and M = 2 reference pixels, yet condition pixel index 1
receives the value 0 of reference pixel index 0 instead of the value 1 of the
correspondingly-indexed reference pixel index 1: line 450 keeps only
`reference_indices[0,:]`, so there is no positional prefix correspondence. -/
theorem C1_counterexample :
    classPixels 1 2 exA_lab 5 = [(0, 0), (0, 1)] ∧
    (swap_features 5 1 1 2 exA_cf exA_rf exA_lab exA_lab).map (fun p => p.1 0 0 0 1) = some 0 ∧
    exA_rf 0 0 0 1 = 1 ∧ (0 : Int) ≠ 1 :=
  ⟨rfl, rfl, rfl, by decide⟩

/-- C1 (amended): after a successful `swap_features` call, every condition pixel
of `swapID` in the first sample receives, on all channels, the reference feature
vector taken at the single first (row-major order) reference pixel of the
resolved class — one vector broadcast to all N condition pixels, not the first
N reference vectors in positional order. -/
theorem C1_swap_broadcasts_first_reference_vector
    (swapID B H W : Nat)
    (cf rf : Nat → Nat → Nat → Nat → Int) (cl rl : Nat → Nat → Nat → Nat)
    (p : (Nat → Nat → Nat → Nat → Int) × (Nat → Nat → Nat → Nat → Int))
    (e fh fw : Nat)
    (hres : swap_features swapID B H W cf rf cl rl = some p)
    (he : resolvedEquiv swapID B H W rl = some e)
    (hhead : (classPixels H W rl e).head? = some (fh, fw))
    (h w c : Nat) (hh : h < H) (hw : w < W) (hcl : cl 0 h w = swapID) :
    p.1 0 c h w = rf 0 c fh fw := by
  obtain ⟨-, e1, he1, -, fh1, fw1, tl, hpx, rfl⟩ :=
    swap_features_inv swapID B H W cf rf cl rl p hres
  rw [he] at he1
  have he2 : e = e1 := by injection he1
  subst he2
  rw [hpx] at hhead
  simp only [List.head?, Option.some.injEq, Prod.mk.injEq] at hhead
  obtain ⟨rfl, rfl⟩ := hhead
  simp [hh, hw, hcl]

/-- C2: `swap_features` only writes the condition feature map; the reference
feature map component of the post-state equals the input reference map, and
every condition feature map entry outside batch 0 or outside the first-sample
`swapID` pixel set is unchanged.  The label maps are only read by the source
(`np.unique`, `nonzero`), which the embedding reflects by not returning them. -/
theorem C2_swap_frame
    (swapID B H W : Nat)
    (cf rf : Nat → Nat → Nat → Nat → Int) (cl rl : Nat → Nat → Nat → Nat)
    (p : (Nat → Nat → Nat → Nat → Int) × (Nat → Nat → Nat → Nat → Int))
    (hres : swap_features swapID B H W cf rf cl rl = some p)
    (b c h w : Nat)
    (hout : ¬ (b = 0 ∧ h < H ∧ w < W ∧ cl 0 h w = swapID)) :
    p.2 = rf ∧ p.1 b c h w = cf b c h w := by
  obtain ⟨-, e1, -, -, fh1, fw1, tl, -, rfl⟩ :=
    swap_features_inv swapID B H W cf rf cl rl p hres
  exact ⟨rfl, by simp [hout]⟩

/-- C3: `swap_features` halts with an assertion failure — modelled as `none`,
with no feature map produced — whenever `swapID` is absent from the condition
label map's value set (line 436), and whenever neither `swapID` nor its
equivalence-table substitute occurs in the reference label map's value set
(line 444, where a missing substitute makes `get_equiv_ID` return `None`). -/
theorem C3_swap_precondition_failure
    (swapID B H W : Nat)
    (cf rf : Nat → Nat → Nat → Nat → Int) (cl rl : Nat → Nat → Nat → Nat)
    (hfail : hasValue B H W cl swapID = false ∨
      (hasValue B H W rl swapID = false ∧
        ∀ e, get_equiv_ID swapID = some e → hasValue B H W rl e = false)) :
    swap_features swapID B H W cf rf cl rl = none := by
  rcases hfail with h1 | ⟨h2, h3⟩
  · simp [swap_features, h1]
  · unfold swap_features
    have hre : resolvedEquiv swapID B H W rl = get_equiv_ID swapID := by
      simp [resolvedEquiv, h2]
    rw [hre]
    cases hg : get_equiv_ID swapID with
    | none => simp
    | some e => simp [h3 e hg]

/-- C6: the equivalence table is exactly the mapping 5 to 1 and 22 to 1, and a
swap targeting class 5 (or 22) against a reference map lacking that class but
containing class 1 resolves to class 1 and succeeds, the condition pixels
receiving the reference features read at a class-1 pixel of the reference map. -/
theorem C6_equivalence_table
    (swapID B H W : Nat)
    (cf rf : Nat → Nat → Nat → Nat → Int) (cl rl : Nat → Nat → Nat → Nat)
    (fh fw : Nat)
    (hs : swapID = 5 ∨ swapID = 22)
    (hc : hasValue B H W cl swapID = true)
    (hr : hasValue B H W rl swapID = false)
    (h1 : hasValue B H W rl 1 = true)
    (hhead : (classPixels H W rl 1).head? = some (fh, fw)) :
    (∀ ID, get_equiv_ID ID = if ID = 5 ∨ ID = 22 then some 1 else none) ∧
    resolvedEquiv swapID B H W rl = some 1 ∧
    ∃ p, swap_features swapID B H W cf rf cl rl = some p ∧
      rl 0 fh fw = 1 ∧
      ∀ h w c, h < H → w < W → cl 0 h w = swapID → p.1 0 c h w = rf 0 c fh fw := by
  have htab : ∀ ID, get_equiv_ID ID = if ID = 5 ∨ ID = 22 then some 1 else none := by
    intro ID
    by_cases h5 : ID = 5
    · simp [get_equiv_ID, h5]
    · by_cases h22 : ID = 22 <;> simp [get_equiv_ID, h5, h22]
  have hre : resolvedEquiv swapID B H W rl = some 1 := by
    rw [resolvedEquiv, hr]
    simp only [Bool.false_eq_true, if_false]
    rcases hs with rfl | rfl <;> rfl
  refine ⟨htab, hre, ?_⟩
  have hmem : (fh, fw) ∈ classPixels H W rl 1 := List.mem_of_mem_head? hhead
  have hval := classPixels_mem H W rl 1 (fh, fw) hmem
  have hcons : classPixels H W rl 1 = (fh, fw) :: (classPixels H W rl 1).tail := by
    cases hpx : classPixels H W rl 1 with
    | nil => rw [hpx] at hhead; exact absurd hhead (by simp)
    | cons a tl =>
      rw [hpx] at hhead
      simp only [List.head?, Option.some.injEq] at hhead
      rw [hhead]
      rfl
  obtain ⟨tl0, hcons2⟩ : ∃ t, classPixels H W rl 1 = (fh, fw) :: t := ⟨_, hcons⟩
  refine ⟨(fun b c h w =>
      if b = 0 ∧ h < H ∧ w < W ∧ cl 0 h w = swapID then rf 0 c fh fw
      else cf b c h w, rf), ?_, hval.2.2, ?_⟩
  · simp only [swap_features, hc, if_true, hre, h1, hcons2]
  · intro h w c hh hw hcl
    simp [hh, hw, hcl]

/-- Witness for C1 on a concrete 1x2 grid. -/
theorem C1_swap_witness :
    resolvedEquiv 5 1 1 2 exA_lab = some 5 ∧
    (classPixels 1 2 exA_lab 5).head? = some (0, 0) ∧
    ((swap_features 5 1 1 2 exA_cf exA_rf exA_lab exA_lab).get!).1 0 0 0 1 = exA_rf 0 0 0 0 :=
  ⟨rfl, rfl,
    C1_swap_broadcasts_first_reference_vector 5 1 1 2 exA_cf exA_rf exA_lab exA_lab
      ((swap_features 5 1 1 2 exA_cf exA_rf exA_lab exA_lab).get!) 5 0 0 rfl rfl rfl
      0 1 0 (by decide) (by decide) rfl⟩

/-- Witness for C2 on a concrete 1x2 grid: the entry at the class-7 pixel keeps
its value 99 and the reference map is returned unchanged. -/
theorem C2_swap_frame_witness :
    ((swap_features 5 1 1 2 exA_cf exA_rf exB_lab exA_lab).get!).2 = exA_rf ∧
    ((swap_features 5 1 1 2 exA_cf exA_rf exB_lab exA_lab).get!).1 0 0 0 1 = exA_cf 0 0 0 1 :=
  C2_swap_frame 5 1 1 2 exA_cf exA_rf exB_lab exA_lab _ rfl 0 0 0 1 (by decide)

/-- Witness for C3: swap id 9 is absent from an all-5 condition map. -/
theorem C3_swap_precondition_witness :
    swap_features 9 1 1 2 exA_cf exA_rf exA_lab exA_lab = none :=
  C3_swap_precondition_failure 9 1 1 2 exA_cf exA_rf exA_lab exA_lab (Or.inl (by decide))

/-- Witness for C6: condition map all 5, reference map all 1. -/
theorem C6_equivalence_witness :
    (∀ ID, get_equiv_ID ID = if ID = 5 ∨ ID = 22 then some 1 else none) ∧
    resolvedEquiv 5 1 1 2 exC_lab = some 1 ∧
    ∃ p, swap_features 5 1 1 2 exA_cf exA_rf exA_lab exC_lab = some p ∧
      exC_lab 0 0 0 = 1 ∧
      ∀ h w c, h < 1 → w < 2 → exA_lab 0 h w = 5 → p.1 0 c h w = exA_rf 0 c 0 0 :=
  C6_equivalence_table 5 1 1 2 exA_cf exA_rf exA_lab exC_lab 0 0 (Or.inl rfl)
    (by decide) (by decide) (by decide) rfl

/-- `broadcast_features` (lines 338-364).  The source loops over
`np.unique(label_map)` and, for each value `i` with resolved class in
`features_dict`, writes `feat[0, k]` (or, for class 6 with `random` set, the
freshly drawn `get_z_random` vector) to channel `k` of every pixel equal to
`i`; absent classes fall back to the per-class average row when `from_avg`
is set and are otherwise left untouched.  Each pixel is written by exactly
one loop iteration (the one for its own value), so the loop is embedded
pixelwise.  `features_dict` maps a class to row 0 of its feature array
(`feat[0, k]`), `z i` is the `get_z_random` draw made in the iteration for
unique value `i`, and `init` is the content of the freshly allocated
(uninitialized) `self.Tensor` buffer, returned wherever the loop never
writes. -/
def broadcast_features (B H W feat_num : Nat)
    (features_dict : Nat → Option (Nat → Int))
    (label_map : Nat → Nat → Nat → Nat)
    (random from_avg : Bool)
    (z : Nat → Nat → Int)
    (avg_features : Nat → Nat → Int)
    (init : Nat → Nat → Nat → Nat → Int) :
    Nat → Nat → Nat → Nat → Int :=
  fun b c h w =>
    if b < B ∧ c < feat_num ∧ h < H ∧ w < W then
      let i := label_map b h w
      let label := resolveLabel i
      match features_dict label with
      | some feat =>
        if label = 6 ∧ random = true then z i c else feat c
      | none =>
        if from_avg = true then avg_features label c else init b c h w
    else init b c h w

/-- `sample_features` (lines 369-388).  Same pixelwise embedding as
`broadcast_features`: `features_clustered` maps a class to (number of
cluster rows, row accessor), `cluster_idx i` is the `np.random.randint`
draw made in the iteration for unique value `i`, and `init` is the
uninitialized `self.Tensor` buffer. -/
def sample_features (B H W feat_num : Nat)
    (features_clustered : Nat → Option (Nat × (Nat → Nat → Int)))
    (cluster_idx : Nat → Nat)
    (inst : Nat → Nat → Nat → Nat)
    (init : Nat → Nat → Nat → Nat → Int) :
    Nat → Nat → Nat → Nat → Int :=
  fun b c h w =>
    if b < B ∧ c < feat_num ∧ h < H ∧ w < W then
      let i := inst b h w
      let label := resolveLabel i
      match features_clustered label with
      | some feat => feat.2 (cluster_idx i) c
      | none => init b c h w
    else init b c h w

/-- C4: in `broadcast_features`, and in `sample_features` with a fixed random
draw, two in-range pixels holding the same composite value receive identical
channel values, wherever a feature vector is actually broadcast there (the
class is in the dictionary, or the average fallback is enabled). -/
theorem C4_same_value_same_vector
    (B H W feat_num : Nat)
    (features_dict : Nat → Option (Nat → Int))
    (label_map : Nat → Nat → Nat → Nat)
    (random from_avg : Bool)
    (z : Nat → Nat → Int) (avg_features : Nat → Nat → Int)
    (init : Nat → Nat → Nat → Nat → Int)
    (features_clustered : Nat → Option (Nat × (Nat → Nat → Int)))
    (cluster_idx : Nat → Nat)
    (inst : Nat → Nat → Nat → Nat)
    (init2 : Nat → Nat → Nat → Nat → Int)
    (b1 h1 w1 b2 h2 w2 c : Nat)
    (hb1 : b1 < B) (hh1 : h1 < H) (hw1 : w1 < W)
    (hb2 : b2 < B) (hh2 : h2 < H) (hw2 : w2 < W)
    (hc : c < feat_num)
    (heq : label_map b1 h1 w1 = label_map b2 h2 w2)
    (heq2 : inst b1 h1 w1 = inst b2 h2 w2)
    (hcov : (features_dict (resolveLabel (label_map b1 h1 w1))).isSome = true ∨ from_avg = true)
    (hcov2 : (features_clustered (resolveLabel (inst b1 h1 w1))).isSome = true) :
    broadcast_features B H W feat_num features_dict label_map random from_avg z avg_features init b1 c h1 w1 =
      broadcast_features B H W feat_num features_dict label_map random from_avg z avg_features init b2 c h2 w2 ∧
    sample_features B H W feat_num features_clustered cluster_idx inst init2 b1 c h1 w1 =
      sample_features B H W feat_num features_clustered cluster_idx inst init2 b2 c h2 w2 := by
  constructor
  · simp only [broadcast_features, hb1, hh1, hw1, hb2, hh2, hw2, hc, and_true, true_and, if_true,
      and_self, heq]
    rw [← heq]
    cases hfd : features_dict (resolveLabel (label_map b1 h1 w1)) with
    | some feat => simp
    | none =>
      rcases hcov with hsome | havg
      · rw [hfd] at hsome; simp at hsome
      · simp [havg]
  · simp only [sample_features, hb1, hh1, hw1, hb2, hh2, hw2, hc, and_true, true_and, if_true,
      and_self, heq2]
    rw [← heq2]
    cases hfc : features_clustered (resolveLabel (inst b1 h1 w1)) with
    | some feat => simp
    | none => rw [hfc] at hcov2; simp at hcov2

def exD_fd : Nat → Option (Nat → Int) := fun j => if j = 3 then some (fun _ => 42) else none

def exD_fc : Nat → Option (Nat × (Nat → Nat → Int)) :=
  fun j => if j = 3 then some (1, fun _ _ => 7) else none

def exD_lab : Nat → Nat → Nat → Nat := fun _ _ _ => 3

def exZero : Nat → Nat → Nat → Nat → Int := fun _ _ _ _ => 0

def exSeven : Nat → Nat → Nat → Nat → Int := fun _ _ _ _ => 7

/-- Witness for C4: two pixels of class 3 on a 1x2 grid. -/
theorem C4_same_value_witness :
    broadcast_features 1 1 2 1 exD_fd exD_lab false false (fun _ _ => 0) (fun _ _ => 0) exZero 0 0 0 0 =
      broadcast_features 1 1 2 1 exD_fd exD_lab false false (fun _ _ => 0) (fun _ _ => 0) exZero 0 0 0 1 ∧
    sample_features 1 1 2 1 exD_fc (fun _ => 0) exD_lab exZero 0 0 0 0 =
      sample_features 1 1 2 1 exD_fc (fun _ => 0) exD_lab exZero 0 0 0 1 :=
  C4_same_value_same_vector 1 1 2 1 exD_fd exD_lab false false (fun _ _ => 0) (fun _ _ => 0) exZero
    exD_fc (fun _ => 0) exD_lab exZero 0 0 0 0 0 1 0
    (by decide) (by decide) (by decide) (by decide) (by decide) (by decide) (by decide)
    rfl rfl (Or.inl rfl) rfl

/-- C5 (counterexample): the feature map buffer is allocated with
`self.Tensor(...)`, which is uninitialized, not zeroed; with buffer contents 7
a pixel of a class absent from the dictionary reads back 7, not 0, in both
`broadcast_features` (average fallback disabled) and `sample_features`. -/
theorem C5_counterexample :
    broadcast_features 1 1 1 1 (fun _ => none) exD_lab false false (fun _ _ => 0) (fun _ _ => 0) exSeven 0 0 0 0 = 7 ∧
    sample_features 1 1 1 1 (fun _ => none) (fun _ => 0) exD_lab exSeven 0 0 0 0 = 7 ∧
    (7 : Int) ≠ 0 :=
  ⟨rfl, rfl, by decide⟩

/-- C5 (amended): for a class absent from the feature dictionary,
`broadcast_features` with the average fallback disabled and `sample_features`
leave the affected pixels unwritten — the returned map equals the freshly
allocated buffer's unspecified contents there — and no error is raised
(both functions are total on this path). -/
theorem C5_missing_class_unwritten
    (B H W feat_num : Nat)
    (features_dict : Nat → Option (Nat → Int))
    (label_map : Nat → Nat → Nat → Nat)
    (random : Bool)
    (z : Nat → Nat → Int) (avg_features : Nat → Nat → Int)
    (init : Nat → Nat → Nat → Nat → Int)
    (features_clustered : Nat → Option (Nat × (Nat → Nat → Int)))
    (cluster_idx : Nat → Nat)
    (inst : Nat → Nat → Nat → Nat)
    (init2 : Nat → Nat → Nat → Nat → Int)
    (b c h w : Nat) (hb : b < B) (hc : c < feat_num) (hh : h < H) (hw : w < W)
    (h1 : features_dict (resolveLabel (label_map b h w)) = none)
    (h2 : features_clustered (resolveLabel (inst b h w)) = none) :
    broadcast_features B H W feat_num features_dict label_map random false z avg_features init b c h w =
      init b c h w ∧
    sample_features B H W feat_num features_clustered cluster_idx inst init2 b c h w =
      init2 b c h w := by
  constructor
  · simp [broadcast_features, hb, hc, hh, hw, h1]
  · simp [sample_features, hb, hc, hh, hw, h2]

/-- Witness for C5 (amended) at a concrete pixel of an absent class. -/
theorem C5_missing_class_witness :
    broadcast_features 1 1 1 1 (fun _ => none) exD_lab true false (fun _ _ => 0) (fun _ _ => 0) exSeven 0 0 0 0 =
      exSeven 0 0 0 0 ∧
    sample_features 1 1 1 1 (fun _ => none) (fun _ => 0) exD_lab exSeven 0 0 0 0 =
      exSeven 0 0 0 0 :=
  C5_missing_class_unwritten 1 1 1 1 (fun _ => none) exD_lab true (fun _ _ => 0) (fun _ _ => 0)
    exSeven (fun _ => none) (fun _ => 0) exD_lab exSeven 0 0 0 0
    (by decide) (by decide) (by decide) (by decide) rfl rfl

/-- One-hot branch of `encode_input` (lines 146-150): a zeroed tensor of
shape (B, label_nc, H, W) receives `scatter_(1, label_map, 1.0)`, i.e.
entry (b, c, h, w) is 1 exactly when `label_map[b, 0, h, w] = c`.  `none`
models the scatter index-out-of-range error raised when some label value
is not below `label_nc`.  (When `label_nc == 0` the source bypasses the
one-hot encoding entirely and passes the raw map through.) -/
def encode_input_onehot (label_nc B H W : Nat) (label_map : Nat → Nat → Nat → Nat) :
    Option (Nat → Nat → Nat → Nat → Nat) :=
  if decide (∀ b : Fin B, ∀ h : Fin H, ∀ w : Fin W, label_map b.val h.val w.val < label_nc) = true then
    some (fun b c h w => if label_map b h w = c then 1 else 0)
  else none

/-- Decoder used by the spec's round-trip property: the first channel index
in [0, n) attaining the maximum of `v`.  The one-hot column has a unique
maximum, so any argmax tie-breaking convention agrees with this one. -/
def argmaxChannel (v : Nat → Nat) : Nat → Nat
  | 0 => 0
  | n + 1 =>
    let a := argmaxChannel v n
    if v a < v n then n else a

/-- `argmaxChannel` stays below its bound. -/
lemma argmaxChannel_lt (v : Nat → Nat) (n : Nat) (hn : 0 < n) : argmaxChannel v n < n := by
  induction n with
  | zero => exact absurd hn (by simp)
  | succ m ih =>
    simp only [argmaxChannel]
    by_cases hlt : v (argmaxChannel v m) < v m
    · simp [hlt]
    · simp only [hlt, if_false]
      rcases Nat.eq_zero_or_pos m with rfl | hm
      · simp [argmaxChannel]
      · exact Nat.lt_succ_of_lt (ih hm)

/-- Argmax of a one-hot vector recovers the hot index. -/
lemma argmaxChannel_onehot (lab n : Nat) (v : Nat → Nat) (hlab : lab < n)
    (hv : ∀ c, v c = if c = lab then 1 else 0) : argmaxChannel v n = lab := by
  induction n with
  | zero => exact absurd hlab (by simp)
  | succ m ih =>
    simp only [argmaxChannel]
    rcases Nat.lt_succ_iff_lt_or_eq.mp hlab with hlt | rfl
    · rw [ih hlt]
      have h1 : v lab = 1 := by rw [hv]; simp
      have h0 : v m = 0 := by rw [hv]; simp [Nat.ne_of_gt hlt]
      simp [h1, h0]
    · rcases Nat.eq_zero_or_pos lab with rfl | hm
      · simp [argmaxChannel]
      · have ha := argmaxChannel_lt v lab hm
        have h0 : v (argmaxChannel v lab) = 0 := by
          rw [hv]; simp [Nat.ne_of_lt ha]
        have h1 : v lab = 1 := by rw [hv]; simp
        simp [h0, h1]

/-- C7: for a nonzero label space and label values below `label_nc`, the
one-hot encoding produced by `encode_input` succeeds, and taking the channel
argmax at each pixel recovers the original label map exactly. -/
theorem C7_onehot_argmax_roundtrip
    (label_nc B H W : Nat) (label_map : Nat → Nat → Nat → Nat)
    (h0 : label_nc ≠ 0)
    (hrange : ∀ b h w, b < B → h < H → w < W → label_map b h w < label_nc) :
    ∃ enc, encode_input_onehot label_nc B H W label_map = some enc ∧
      ∀ b h w, b < B → h < H → w < W →
        argmaxChannel (fun c => enc b c h w) label_nc = label_map b h w := by
  have hdec : (∀ b : Fin B, ∀ h : Fin H, ∀ w : Fin W, label_map b.val h.val w.val < label_nc) := by
    intro b h w
    exact hrange b.val h.val w.val b.isLt h.isLt w.isLt
  refine ⟨fun b c h w => if label_map b h w = c then 1 else 0, ?_, ?_⟩
  · simp [encode_input_onehot, hdec]
  intro b h w hb hh hw
  exact argmaxChannel_onehot (label_map b h w) label_nc _ (hrange b h w hb hh hw)
    (fun c => by
      change (if label_map b h w = c then 1 else 0) = _
      by_cases hc : label_map b h w = c
      · rw [if_pos hc, if_pos hc.symm]
      · rw [if_neg hc, if_neg (fun hcc => hc hcc.symm)])

/-- Witness for C7: label_nc = 2, all-1 label map on a 1x2 grid. -/
theorem C7_onehot_witness :
    (2 : Nat) ≠ 0 ∧
    ∃ enc, encode_input_onehot 2 1 1 2 exC_lab = some enc ∧
      ∀ b h w, b < 1 → h < 1 → w < 2 →
        argmaxChannel (fun c => enc b c h w) 2 = exC_lab b h w :=
  ⟨by decide, C7_onehot_argmax_roundtrip 2 1 1 2 exC_lab (by decide)
    (fun b h w _ _ _ => by simp [exC_lab])⟩

/-- `get_edges` (lines 468-478): the four in-place OR updates mark pixel
(h, w) when its left, right, upper or lower neighbour (when it exists)
carries a different instance id.  The batch/channel dimensions never enter
the comparisons, so `b` indexes both of them collapsed. -/
def get_edges (H W : Nat) (t : Nat → Nat → Nat → Nat) : Nat → Nat → Nat → Bool :=
  fun b h w =>
    (decide (1 ≤ w) && decide (t b h w ≠ t b h (w - 1))) ||
    (decide (w + 1 < W) && decide (t b h (w + 1) ≠ t b h w)) ||
    (decide (1 ≤ h) && decide (t b h w ≠ t b (h - 1) w)) ||
    (decide (h + 1 < H) && decide (t b (h + 1) w ≠ t b h w))

/-- C8: a pixel is an edge exactly when at least one of its in-bounds
horizontal or vertical neighbours has a different instance id, and the mask
is symmetric: whenever two horizontally or vertically adjacent pixels
disagree, both are marked. -/
theorem C8_edge_mask_symmetric (H W : Nat) (t : Nat → Nat → Nat → Nat) :
    (∀ b h w, h < H → w < W →
      (get_edges H W t b h w = true ↔
        ((1 ≤ w ∧ t b h w ≠ t b h (w - 1)) ∨ (w + 1 < W ∧ t b h (w + 1) ≠ t b h w) ∨
         (1 ≤ h ∧ t b h w ≠ t b (h - 1) w) ∨ (h + 1 < H ∧ t b (h + 1) w ≠ t b h w)))) ∧
    (∀ b h w, w + 1 < W → t b h w ≠ t b h (w + 1) →
      get_edges H W t b h w = true ∧ get_edges H W t b h (w + 1) = true) ∧
    (∀ b h w, h + 1 < H → t b h w ≠ t b (h + 1) w →
      get_edges H W t b h w = true ∧ get_edges H W t b (h + 1) w = true) := by
  refine ⟨?_, ?_, ?_⟩
  · intro b h w _ _
    simp [get_edges, Bool.or_eq_true, Bool.and_eq_true, decide_eq_true_eq, or_assoc]
  · intro b h w hw hne
    constructor
    · have : w + 1 < W ∧ t b h (w + 1) ≠ t b h w := ⟨hw, fun he => hne he.symm⟩
      simp [get_edges, this.1, this.2]
    · have h1 : 1 ≤ w + 1 := Nat.le_add_left 1 w
      have h2 : t b h (w + 1) ≠ t b h (w + 1 - 1) := by
        simpa using fun he => hne he.symm
      simp only [get_edges, Bool.or_eq_true, Bool.and_eq_true, decide_eq_true_eq]
      exact Or.inl (Or.inl (Or.inl ⟨h1, h2⟩))
  · intro b h w hh hne
    constructor
    · have : h + 1 < H ∧ t b (h + 1) w ≠ t b h w := ⟨hh, fun he => hne he.symm⟩
      simp [get_edges, this.1, this.2]
    · have h1 : 1 ≤ h + 1 := Nat.le_add_left 1 h
      have h2 : t b (h + 1) w ≠ t b (h + 1 - 1) w := by
        simpa using fun he => hne he.symm
      simp only [get_edges, Bool.or_eq_true, Bool.and_eq_true, decide_eq_true_eq]
      exact Or.inl (Or.inr ⟨h1, h2⟩)

/-- Instance map with ids 1 (column 0) and 2 (column 1). -/
def exE_inst : Nat → Nat → Nat → Nat := fun _ _ w => if w = 0 then 1 else 2

/-- Witness for C8: adjacent disagreeing pixels are both marked. -/
theorem C8_edge_witness :
    get_edges 1 2 exE_inst 0 0 0 = true ∧ get_edges 1 2 exE_inst 0 0 1 = true :=
  (C8_edge_mask_symmetric 1 2 exE_inst).2.1 0 0 0 (by decide) (by decide)

/-- `init_loss_filter` (lines 25-29): the returned closure zips the seven
loss terms (g_gan, g_gan_feat, g_vgg, g_style, g_recon, d_real, d_fake)
with the flag tuple (True, use_gan_feat_loss, use_vgg_loss, use_style_loss,
use_recon_loss, True, True) and keeps the terms whose flag is set, in
order. -/
def loss_filter (use_gan_feat_loss use_vgg_loss use_style_loss use_recon_loss : Bool)
    (g_gan g_gan_feat g_vgg g_style g_recon d_real d_fake : Int) : List Int :=
  (([(g_gan, true), (g_gan_feat, use_gan_feat_loss), (g_vgg, use_vgg_loss),
     (g_style, use_style_loss), (g_recon, use_recon_loss), (d_real, true),
     (d_fake, true)].filter (fun lf => lf.2)).map (fun lf => lf.1))

/-- C9 (counterexample): with feature-matching, perceptual (VGG) and
reconstruction losses all disabled but the style loss enabled — a fourth
flag the claim does not mention — the filter returns four terms, not
three. -/
theorem C9_counterexample :
    loss_filter false false true false 1 2 3 4 5 6 7 = [1, 4, 6, 7] ∧
    (loss_filter false false true false 1 2 3 4 5 6 7).length ≠ 3 :=
  ⟨rfl, by decide⟩

/-- C9 (amended): when all four auxiliary flags (feature-matching,
perceptual, style, reconstruction) are disabled the filter returns exactly
the three terms adversarial generator, real discriminator, fake
discriminator in that order, and those three terms are included for every
flag configuration. -/
theorem C9_loss_filter_amended
    (f1 f2 f3 f4 : Bool) (g_gan g_gan_feat g_vgg g_style g_recon d_real d_fake : Int) :
    loss_filter false false false false g_gan g_gan_feat g_vgg g_style g_recon d_real d_fake =
      [g_gan, d_real, d_fake] ∧
    (loss_filter false false false false g_gan g_gan_feat g_vgg g_style g_recon d_real d_fake).length = 3 ∧
    (g_gan ∈ loss_filter f1 f2 f3 f4 g_gan g_gan_feat g_vgg g_style g_recon d_real d_fake ∧
     d_real ∈ loss_filter f1 f2 f3 f4 g_gan g_gan_feat g_vgg g_style g_recon d_real d_fake ∧
     d_fake ∈ loss_filter f1 f2 f3 f4 g_gan g_gan_feat g_vgg g_style g_recon d_real d_fake) := by
  refine ⟨rfl, rfl, ?_⟩
  cases f1 <;> cases f2 <;> cases f3 <;> cases f4 <;> simp [loss_filter]

/-- Witness for C9 (amended) at concrete loss values. -/
theorem C9_loss_filter_witness :
    loss_filter false false false false 1 2 3 4 5 6 7 = [1, 6, 7] ∧
    (loss_filter false false false false 1 2 3 4 5 6 7).length = 3 ∧
    ((1 : Int) ∈ loss_filter true true true true 1 2 3 4 5 6 7 ∧
     (6 : Int) ∈ loss_filter true true true true 1 2 3 4 5 6 7 ∧
     (7 : Int) ∈ loss_filter true true true true 1 2 3 4 5 6 7) :=
  C9_loss_filter_amended true true true true 1 2 3 4 5 6 7

/-- `(inst == i).nonzero()` over the full (B, 1, H, W) tensor: the
(b, h, w) coordinates of value `i`, in the row-major order `torch.nonzero`
enumerates them. -/
def instPixels (B H W : Nat) (m : Nat → Nat → Nat → Nat) (i : Nat) : List (Nat × Nat × Nat) :=
  (List.range B).flatMap (fun b =>
    (List.range H).flatMap (fun h =>
      (List.range W).filterMap (fun w => if m b h w = i then some (b, h, w) else none)))

/-- `np.unique(inst)`: the distinct values of the map, sorted
ascending. -/
def uniqueVals (B H W : Nat) (m : Nat → Nat → Nat → Nat) : List Nat :=
  (((List.range B).flatMap (fun b =>
      (List.range H).flatMap (fun h =>
        (List.range W).map (fun w => m b h w)))).dedup).insertionSort (· ≤ ·)

/-- The row built for unique value `i` in `encode_features` (lines
422-428): the encoder feature map read at the median-indexed pixel of the
value's occurrence list (`idx[num//2,:]`, channels 0..feat_num-1), plus one
trailing entry `num / (h*w // 32)` recording normalized pixel occupancy.
The divisor `h*w // 32` is an integer; when `H * W < 32` it is 0 and line
428 raises `ZeroDivisionError`, modelled as `none`. -/
def instRow (feat_num B H W : Nat) (feat_map : Nat → Nat → Nat → Nat → ℚ)
    (m : Nat → Nat → Nat → Nat) (i : Nat) : Option (List ℚ) :=
  let idxs := instPixels B H W m i
  let num := idxs.length
  let idx := idxs.getD (num / 2) (0, 0, 0)
  if (H * W / 32 : Nat) = 0 then none
  else
    some (((List.range feat_num).map (fun k => feat_map idx.1 k idx.2.1 idx.2.2)) ++
      [(num : ℚ) / ((H * W / 32 : Nat) : ℚ)])

/-- One iteration of the `encode_features` loop over `np.unique(inst)`
(lines 420-429): build this value's row (line 428 can raise
`ZeroDivisionError`), then append it to the entry of its resolved class
(line 429, where a resolved class that is not an existing key raises
`KeyError` on the read `feature[label]`), in that evaluation order; either
error is modelled as `none`. -/
def encode_step (feat_num B H W : Nat) (feat_map : Nat → Nat → Nat → Nat → ℚ)
    (inst : Nat → Nat → Nat → Nat)
    (feature : Nat → Option (List (List ℚ))) (i : Nat) :
    Option (Nat → Option (List (List ℚ))) :=
  match instRow feat_num B H W feat_map inst i with
  | none => none
  | some row =>
    match feature (resolveLabel i) with
    | none => none
    | some rows =>
      some (fun j =>
        if j = resolveLabel i then some (rows ++ [row])
        else feature j)

/-- `encode_features` (lines 409-430): the dictionary starts with the keys
0 .. label_nc-1, each mapped to an empty row list (lines 418-419, the empty
(0, feat_num+1) array), then each distinct instance value appends one row
under its resolved class.  The encoder network output is the external
parameter `feat_map`. -/
def encode_features (label_nc feat_num B H W : Nat)
    (feat_map : Nat → Nat → Nat → Nat → ℚ) (inst : Nat → Nat → Nat → Nat) :
    Option (Nat → Option (List (List ℚ))) :=
  (uniqueVals B H W inst).foldlM (encode_step feat_num B H W feat_map inst)
    (fun i => if i < label_nc then some [] else none)

/-- Every successfully built row has length feat_num + 1. -/
lemma instRow_length (feat_num B H W : Nat) (feat_map : Nat → Nat → Nat → Nat → ℚ)
    (m : Nat → Nat → Nat → Nat) (i : Nat) (row : List ℚ)
    (hrow : instRow feat_num B H W feat_map m i = some row) :
    row.length = feat_num + 1 := by
  unfold instRow at hrow
  split at hrow
  · exact absurd hrow (by simp)
  · simp only [Option.some.injEq] at hrow
    subst hrow
    simp

/-- When the occupancy divisor `h*w // 32` is nonzero, the row is built. -/
lemma instRow_isSome (feat_num B H W : Nat) (feat_map : Nat → Nat → Nat → Nat → ℚ)
    (m : Nat → Nat → Nat → Nat) (i : Nat) (hdiv : H * W / 32 ≠ 0) :
    ∃ row, instRow feat_num B H W feat_map m i = some row := by
  unfold instRow
  simp [hdiv]

/-- On a grid with `H * W / 32 = 0` and at least one instance value, the
first loop iteration of `encode_features` hits the `ZeroDivisionError` of
line 428 and no dictionary is returned. -/
lemma encode_features_div_zero (label_nc feat_num B H W : Nat)
    (feat_map : Nat → Nat → Nat → Nat → ℚ) (inst : Nat → Nat → Nat → Nat)
    (hdiv : H * W / 32 = 0) (hne : uniqueVals B H W inst ≠ []) :
    encode_features label_nc feat_num B H W feat_map inst = none := by
  unfold encode_features
  cases hL : uniqueVals B H W inst with
  | nil => exact absurd hL hne
  | cons i L =>
    have hstep : ∀ f : Nat → Option (List (List ℚ)),
        encode_step feat_num B H W feat_map inst f i = none := by
      intro f
      unfold encode_step instRow
      simp [hdiv]
    simp [List.foldlM, hstep]

/-- Invariant of the `encode_features` fold: on a grid whose occupancy
divisor is nonzero, when every remaining value resolves below `label_nc`,
the fold succeeds, keys stay exactly 0 .. label_nc-1, and each key holds
one row of length feat_num + 1 per processed value resolving to it. -/
lemma encode_fold_inv (label_nc feat_num B H W : Nat)
    (feat_map : Nat → Nat → Nat → Nat → ℚ) (inst : Nat → Nat → Nat → Nat)
    (hdiv : H * W / 32 ≠ 0) :
    ∀ (L : List Nat) (f : Nat → Option (List (List ℚ))) (processed : List Nat),
      (∀ i ∈ L, resolveLabel i < label_nc) →
      (∀ j, (j < label_nc → ∃ rows, f j = some rows ∧
               rows.length = (processed.filter (fun i => resolveLabel i = j)).length ∧
               ∀ r ∈ rows, r.length = feat_num + 1) ∧
            (¬ j < label_nc → f j = none)) →
      ∃ g, L.foldlM (encode_step feat_num B H W feat_map inst) f = some g ∧
        ∀ j, (j < label_nc → ∃ rows, g j = some rows ∧
                rows.length = ((processed ++ L).filter (fun i => resolveLabel i = j)).length ∧
                ∀ r ∈ rows, r.length = feat_num + 1) ∧
             (¬ j < label_nc → g j = none) := by
  intro L
  induction L with
  | nil =>
    intro f processed _ hinv
    exact ⟨f, rfl, by simpa using hinv⟩
  | cons i L ih =>
    intro f processed hL hinv
    have hi : resolveLabel i < label_nc := hL i (List.mem_cons_self _ _)
    obtain ⟨rows, hrows, hlen, hrlen⟩ := (hinv (resolveLabel i)).1 hi
    obtain ⟨row, hrow⟩ := instRow_isSome feat_num B H W feat_map inst i hdiv
    have hstep : encode_step feat_num B H W feat_map inst f i =
        some (fun j =>
          if j = resolveLabel i then some (rows ++ [row])
          else f j) := by
      simp [encode_step, hrow, hrows]
    have hinv2 : ∀ j, (j < label_nc → ∃ rows2,
          (fun j => if j = resolveLabel i then some (rows ++ [row])
            else f j) j = some rows2 ∧
          rows2.length = ((processed ++ [i]).filter (fun x => resolveLabel x = j)).length ∧
          ∀ r ∈ rows2, r.length = feat_num + 1) ∧
        (¬ j < label_nc →
          (fun j => if j = resolveLabel i then some (rows ++ [row])
            else f j) j = none) := by
      intro j
      constructor
      · intro hj
        by_cases hji : j = resolveLabel i
        · subst hji
          refine ⟨rows ++ [row], by simp, ?_, ?_⟩
          · simp only [List.filter_append, List.length_append, hlen]
            simp [List.filter]
          · intro r hr
            rcases List.mem_append.mp hr with hr1 | hr2
            · exact hrlen r hr1
            · rw [List.mem_singleton.mp hr2]
              exact instRow_length feat_num B H W feat_map inst i row hrow
        · obtain ⟨rows2, h1, h2, h3⟩ := (hinv j).1 hj
          refine ⟨rows2, by simp [hji, h1], ?_, h3⟩
          rw [h2]
          simp only [List.filter_append]
          have hne : resolveLabel i ≠ j := fun hx => hji hx.symm
          have : List.filter (fun x => decide (resolveLabel x = j)) [i] = [] := by
            simp [hne]
          simp [this]
      · intro hj
        have hji : j ≠ resolveLabel i := fun he => hj (he ▸ hi)
        simp only [hji, if_false]
        exact (hinv j).2 hj
    obtain ⟨g, hg, hginv⟩ := ih _ (processed ++ [i]) (fun x hx => hL x (List.mem_cons_of_mem _ hx)) hinv2
    refine ⟨g, ?_, ?_⟩
    · simp only [List.foldlM, hstep]
      simpa [hstep] using hg
    · intro j
      have := hginv j
      simpa [List.append_assoc] using this

/-- C10: when the occupancy divisor `h*w // 32` is nonzero and every
instance value's resolved class is below `label_nc` (otherwise the source
raises `ZeroDivisionError` at line 428 or `KeyError` at line 429 and
returns nothing), the returned dictionary has exactly the keys
0 .. label_nc-1 — so no composite class+instance value above them ever
appears as a key — a class with no instance maps to the empty row list
(the empty (0, feat_num+1) array), and each distinct instance value
contributes exactly one row of length feat_num + 1 under its resolved
class `i` (or `i // 1000` when `i >= 1000`). -/
theorem C10_encode_features_dict
    (label_nc feat_num B H W : Nat)
    (feat_map : Nat → Nat → Nat → Nat → ℚ) (inst : Nat → Nat → Nat → Nat)
    (hdiv : H * W / 32 ≠ 0)
    (hrange : ∀ i ∈ uniqueVals B H W inst, resolveLabel i < label_nc) :
    ∃ feature, encode_features label_nc feat_num B H W feat_map inst = some feature ∧
      (∀ j, (feature j).isSome = true ↔ j < label_nc) ∧
      (∀ j rows, feature j = some rows →
        rows.length = ((uniqueVals B H W inst).filter (fun i => resolveLabel i = j)).length ∧
        ∀ r ∈ rows, r.length = feat_num + 1) ∧
      (∀ j, j < label_nc →
        ((uniqueVals B H W inst).filter (fun i => resolveLabel i = j)) = [] →
        feature j = some []) := by
  have hinv0 : ∀ j, (j < label_nc → ∃ rows,
        (fun i => if i < label_nc then some ([] : List (List ℚ)) else none) j = some rows ∧
        rows.length = (([] : List Nat).filter (fun i => resolveLabel i = j)).length ∧
        ∀ r ∈ rows, r.length = feat_num + 1) ∧
      (¬ j < label_nc →
        (fun i => if i < label_nc then some ([] : List (List ℚ)) else none) j = none) := by
    intro j
    constructor
    · intro hj
      exact ⟨[], by simp [hj], by simp, by simp⟩
    · intro hj
      simp [hj]
  obtain ⟨g, hg, hinv⟩ := encode_fold_inv label_nc feat_num B H W feat_map inst hdiv
    (uniqueVals B H W inst) _ [] hrange hinv0
  refine ⟨g, hg, ?_, ?_, ?_⟩
  · intro j
    constructor
    · intro hs
      by_contra hj
      rw [(hinv j).2 hj] at hs
      simp at hs
    · intro hj
      obtain ⟨rows, h1, -, -⟩ := (hinv j).1 hj
      simp [h1]
  · intro j rows hjr
    by_cases hj : j < label_nc
    · obtain ⟨rows2, h1, h2, h3⟩ := (hinv j).1 hj
      rw [hjr] at h1
      have heq : rows = rows2 := by injection h1
      subst heq
      exact ⟨by simpa using h2, h3⟩
    · rw [(hinv j).2 hj] at hjr
      exact absurd hjr (by simp)
  · intro j hj hempty
    obtain ⟨rows, h1, h2, -⟩ := (hinv j).1 hj
    simp only [List.nil_append] at h2
    rw [hempty] at h2
    simp only [List.length_nil] at h2
    rw [h1, List.length_eq_zero.mp h2]

/-- Instance map that is 1 everywhere. -/
def exF_inst : Nat → Nat → Nat → Nat := fun _ _ _ => 1

/-- Zero encoder feature map. -/
def exF_fm : Nat → Nat → Nat → Nat → ℚ := fun _ _ _ _ => 0

/-- Witness for C10: label_nc = 2, a 1x32 grid (so the occupancy divisor
`1*32 // 32 = 1` is nonzero) holding a single instance of class 1. -/
theorem C10_encode_features_witness :
    ((1 * 32 / 32 : Nat) ≠ 0) ∧
    (∀ i ∈ uniqueVals 1 1 32 exF_inst, resolveLabel i < 2) ∧
    ∃ feature, encode_features 2 1 1 1 32 exF_fm exF_inst = some feature ∧
      (∀ j, (feature j).isSome = true ↔ j < 2) ∧
      (∀ j rows, feature j = some rows →
        rows.length = ((uniqueVals 1 1 32 exF_inst).filter (fun i => resolveLabel i = j)).length ∧
        ∀ r ∈ rows, r.length = 1 + 1) ∧
      (∀ j, j < 2 →
        ((uniqueVals 1 1 32 exF_inst).filter (fun i => resolveLabel i = j)) = [] →
        feature j = some []) :=
  ⟨by decide, by decide,
    C10_encode_features_dict 2 1 1 1 32 exF_fm exF_inst (by decide) (by decide)⟩
